import Mathlib

/-!
# FileIO: privilege scope, scoped descriptor and directory cleanup

A shallow embedding of `src/FileIO.h`.

* C++ calls are state transformers over a `Machine`: the world the operating
  system and the wrapped operation act on, the variables of the caller that the
  call names as arguments, and the chronological trace of the events the
  embedded code performs.
* A call ends in an `Outcome`: a normal return or a thrown exception.
* Objects with automatic storage duration are modelled by `automatic`: the
  destructor runs when the scope is left, by a return or by an exception.
* The operating-system primitives (`setfsuid`, `setfsgid`, `open`, `close`)
  are parameters: nothing about them is assumed unless a theorem says so.
* Filesystem ids are kept in the `int` representation the source uses
  (`auto previuousuid = setfsuid(-1)`): the conversion between `int` and
  `uid_t` is a bijection, under which `(uid_t)-1` is the int `-1`.

Running out of memory while copying arguments or allocating the control block
of the `shared_ptr` is not modelled.
-/

namespace FileIO

/-! ## Outcomes, events, machines -/

/-- How a C++ call ends: it returns a value, or it exits by an exception. -/
inductive Outcome (ε ρ : Type) where
  | returned (v : ρ)
  | raised (e : ε)
  deriving DecidableEq, Repr

/-- What the embedded code does, in the order it does it. `call` marks the
start of the wrapped operation and records the filesystem identity in force
at that moment; `fnReturned` and `fnRaised` mark its end. -/
inductive Event where
  | lock
  | unlock
  | setfsuid (arg : Int)
  | setfsgid (arg : Int)
  | call (fsuid fsgid : Int)
  | fnReturned
  | fnRaised
  | sysOpen (location : String) (flags permission : Int) (fd : Int)
  | sysClose (fd : Int)
  deriving DecidableEq, Repr

/-- The state a call runs in: `world` is what the OS and the wrapped operation
act on, `caller` holds the caller's variables named as arguments of the call,
`trace` is the list of events so far, oldest first. -/
structure Machine (σ α : Type) where
  world : σ
  caller : α
  trace : List Event

/-- A piece of C++ code: from a machine to an outcome and the machine after. -/
def Prog (σ α ε ρ : Type) : Type := Machine σ α → Outcome ε ρ × Machine σ α

/-- Code that returns `v` and does nothing else. -/
def Prog.ret {σ α ε ρ : Type} (v : ρ) : Prog σ α ε ρ := fun m => (Outcome.returned v, m)

/-- Sequencing of statements: when the first exits by an exception the rest
is skipped and the exception propagates. -/
def Prog.seq {σ α ε ρ τ : Type} (p : Prog σ α ε ρ) (k : ρ → Prog σ α ε τ) : Prog σ α ε τ :=
  fun m =>
    match p m with
    | (Outcome.returned v, m1) => k v m1
    | (Outcome.raised e, m1) => (Outcome.raised e, m1)

/-- A variable with automatic storage duration: `ctor` constructs it, `body`
is the rest of the enclosing scope, `dtor` is its destructor. The destructor
runs when the scope is left, whichever way the body ended, and only if the
constructor completed. -/
def automatic {σ α ε ρ τ : Type} (ctor : Prog σ α ε τ) (dtor : τ → Machine σ α → Machine σ α)
    (body : τ → Prog σ α ε ρ) : Prog σ α ε ρ :=
  fun m =>
    match ctor m with
    | (Outcome.returned obj, m1) =>
      match body obj m1 with
      | (out, m2) => (out, dtor obj m2)
    | (Outcome.raised e, m1) => (Outcome.raised e, m1)

/-- Append one event to the trace. -/
def Machine.log {σ α : Type} (m : Machine σ α) (e : Event) : Machine σ α :=
  { m with trace := m.trace ++ [e] }

/-! ## The privilege scope: `SudoFile` -/

/-- The primitives of `<sys/fsuid.h>` that `SudoFile` calls, and the identity
they act on. `setfsuid x` returns an `int` and the world after the call. -/
structure OS (σ : Type) where
  setfsuid : Int → σ → Int × σ
  setfsgid : Int → σ → Int × σ
  fsuid : σ → Int
  fsgid : σ → Int

/-- The call `setfsuid(x)`, as the embedded code performs it. -/
def sys_setfsuid {σ α ε : Type} (os : OS σ) (x : Int) : Prog σ α ε Int :=
  fun m =>
    (Outcome.returned (os.setfsuid x m.world).1,
      { m with world := (os.setfsuid x m.world).2, trace := m.trace ++ [Event.setfsuid x] })

/-- The call `setfsgid(x)`, as the embedded code performs it. -/
def sys_setfsgid {σ α ε : Type} (os : OS σ) (x : Int) : Prog σ α ε Int :=
  fun m =>
    (Outcome.returned (os.setfsgid x m.world).1,
      { m with world := (os.setfsgid x m.world).2, trace := m.trace ++ [Event.setfsgid x] })

/-- An operation that can be passed to `SudoFile`: it receives its arguments
by reference, so it gets their current values and leaves their final values,
and it acts on the world. -/
abbrev Operation (σ α ε ρ : Type) : Type := α → σ → Outcome ε ρ × α × σ

/-- The object `std::bind(fn, args...)` builds: the callable and its own
decayed copies of the arguments. -/
structure Bound (σ α ε ρ : Type) where
  fn : Operation σ α ε ρ
  stored : α

/-- `std::bind(fn, std::forward<Args>(args)...)`: the arguments are references
to the caller's variables; their values are copied into the bind object. -/
def stdBind {σ α ε ρ : Type} (fn : Operation σ α ε ρ) : Prog σ α ε (Bound σ α ε ρ) :=
  fun m => (Outcome.returned { fn := fn, stored := m.caller }, m)

/-- `func()`: the callable is applied to the stored copies, which it receives
as lvalues; what it writes through its reference parameters lands in the bind
object, which is destroyed when `SudoFile` returns. -/
def Bound.invoke {σ α ε ρ : Type} (os : OS σ) (func : Bound σ α ε ρ) : Prog σ α ε ρ :=
  fun m =>
    let m1 := m.log (Event.call (os.fsuid m.world) (os.fsgid m.world))
    match func.fn func.stored m1.world with
    | (Outcome.returned v, _, w) =>
      (Outcome.returned v, { m1 with world := w, trace := m1.trace ++ [Event.fnReturned] })
    | (Outcome.raised e, _, w) =>
      (Outcome.raised e, { m1 with world := w, trace := m1.trace ++ [Event.fnRaised] })

/-- A direct call `fn(args...)` by the caller, for comparison: the reference
parameters are bound to the caller's own variables. -/
def callDirect {σ α ε ρ : Type} (os : OS σ) (fn : Operation σ α ε ρ) : Prog σ α ε ρ :=
  fun m =>
    let m1 := m.log (Event.call (os.fsuid m.world) (os.fsgid m.world))
    match fn m1.caller m1.world with
    | (Outcome.returned v, a, w) =>
      (Outcome.returned v, { world := w, caller := a, trace := m1.trace ++ [Event.fnReturned] })
    | (Outcome.raised e, a, w) =>
      (Outcome.raised e, { world := w, caller := a, trace := m1.trace ++ [Event.fnRaised] })

/-- The deleter of `resetPreviousPermisions`:
`setfsuid(previuousuid); setfsgid(previuousgid);`. -/
def resetPreviousPermisions {σ α : Type} (os : OS σ) (previuousuid previuousgid : Int)
    (m : Machine σ α) : Machine σ α :=
  let m1 : Machine σ α :=
    { m with world := (os.setfsuid previuousuid m.world).2,
             trace := m.trace ++ [Event.setfsuid previuousuid] }
  { m1 with world := (os.setfsgid previuousgid m1.world).2,
            trace := m1.trace ++ [Event.setfsgid previuousgid] }

/-- The function template `SudoFile` of FileIO.h, statement by statement. -/
def SudoFile {σ α ε ρ : Type} (os : OS σ) (fn : Operation σ α ε ρ) : Prog σ α ε ρ :=
  -- std::lock_guard<std::mutex> lock(sudoFileMutex);
  automatic (fun m => (Outcome.returned (), m.log Event.lock)) (fun _ m => m.log Event.unlock)
    fun _ =>
  -- auto previuousuid = setfsuid(-1);
  Prog.seq (sys_setfsuid os (-1)) fun previuousuid =>
  -- auto previuousgid = setfsgid(-1);
  Prog.seq (sys_setfsgid os (-1)) fun previuousgid =>
  -- std::shared_ptr<void> resetPreviousPermisions(nullptr, [&](void*) {...});
  automatic (Prog.ret ()) (fun _ => resetPreviousPermisions os previuousuid previuousgid)
    fun _ =>
  -- setfsuid(0);
  Prog.seq (sys_setfsuid os 0) fun _ =>
  -- setfsgid(0);
  Prog.seq (sys_setfsgid os 0) fun _ =>
  -- auto func = std::bind(fn, std::forward<Args>(args)...);
  Prog.seq (stdBind fn) fun func =>
  -- return func();
  func.invoke os

/-! ### Vocabulary for the statements about `SudoFile` -/

/-- The value `previuousuid` holds: what `setfsuid(-1)` returned. -/
def previousUid {σ : Type} (os : OS σ) (w : σ) : Int := (os.setfsuid (-1) w).1

/-- The value `previuousgid` holds: what `setfsgid(-1)` returned. -/
def previousGid {σ : Type} (os : OS σ) (w : σ) : Int :=
  (os.setfsgid (-1) (os.setfsuid (-1) w).2).1

/-- The world `fn` starts in: after the two queries and the two elevation calls. -/
def elevatedWorld {σ : Type} (os : OS σ) (w : σ) : σ :=
  (os.setfsgid 0 (os.setfsuid 0 (os.setfsgid (-1) (os.setfsuid (-1) w).2).2).2).2

/-- The world after `setfsuid(p); setfsgid(q);`. -/
def restoredWorld {σ : Type} (os : OS σ) (p q : Int) (w : σ) : σ :=
  (os.setfsgid q (os.setfsuid p w).2).2

/-- The event that records how `fn` ended. -/
def exitEvent {ε ρ : Type} : Outcome ε ρ → Event
  | Outcome.returned _ => Event.fnReturned
  | Outcome.raised _ => Event.fnRaised

/-- The events of one `SudoFile` call before `fn` starts. -/
def prologue : List Event :=
  [Event.lock, Event.setfsuid (-1), Event.setfsgid (-1), Event.setfsuid 0, Event.setfsgid 0]

/-- The events of one `SudoFile` call after `fn` has finished. -/
def epilogue (p q : Int) : List Event :=
  [Event.setfsuid p, Event.setfsgid q, Event.unlock]

/-- The filesystem identity of a world. -/
def identity {σ : Type} (os : OS σ) (w : σ) : Int × Int := (os.fsuid w, os.fsgid w)

/-- The assumption on the operating system under which the identity claims are
made: the calls return the previous id, a call with `-1` changes nothing, and
every other request is applied (and touches only the id it names). -/
structure Honours {σ : Type} (os : OS σ) : Prop where
  uid_returns : ∀ x w, (os.setfsuid x w).1 = os.fsuid w
  gid_returns : ∀ x w, (os.setfsgid x w).1 = os.fsgid w
  uid_query : ∀ w, (os.setfsuid (-1) w).2 = w
  gid_query : ∀ w, (os.setfsgid (-1) w).2 = w
  uid_applied : ∀ x w, x ≠ -1 →
    os.fsuid (os.setfsuid x w).2 = x ∧ os.fsgid (os.setfsuid x w).2 = os.fsgid w
  gid_applied : ∀ x w, x ≠ -1 →
    os.fsgid (os.setfsgid x w).2 = x ∧ os.fsuid (os.setfsgid x w).2 = os.fsuid w

/-- A world whose filesystem ids are real ids: `-1`, that is `(uid_t)-1`, is
the value the kernel reserves for "no id" and no process has it. -/
def ValidIdentity {σ : Type} (os : OS σ) (w : σ) : Prop :=
  os.fsuid w ≠ -1 ∧ os.fsgid w ≠ -1

instance {σ : Type} (os : OS σ) (w : σ) : Decidable (ValidIdentity os w) :=
  inferInstanceAs (Decidable (os.fsuid w ≠ -1 ∧ os.fsgid w ≠ -1))

/-- Whether an event is the start of the wrapped operation. -/
def Event.isCall : Event → Bool
  | Event.call _ _ => true
  | _ => false

/-- The events a machine has logged beyond the first `n`. -/
def Machine.since {σ α : Type} (m : Machine σ α) (n : Nat) : List Event := m.trace.drop n

/-! ### A concrete world, a kernel that applies requests and one that refuses -/

/-- Classification of a directory entry, from filesystem metadata. -/
inductive EntryKind where
  | RegularFile
  | Directory
  | Other
  deriving DecidableEq, Repr

/-- One entry the OS directory iterator yields: a name and its type. -/
structure DirEntry where
  name : String
  kind : EntryKind
  deriving DecidableEq, Repr

/-- A concrete world: the filesystem identity of the process, the listing of
each directory, what each path names (nothing when the path is absent), the
paths whose removal the OS refuses, and the value the interrupt flag has at
each successive poll. -/
structure World where
  fsuid : Int
  fsgid : Int
  listing : String → List DirEntry
  kindOf : String → Option EntryKind
  undeletable : String → Bool
  interrupted : Nat → Bool

/-- A kernel that applies every request (the caller holds CAP_SETUID and
CAP_SETGID); `-1` is not an id, so a call with it only reports. -/
def privilegedKernel : OS World where
  setfsuid := fun x w => (w.fsuid, if x = -1 then w else { w with fsuid := x })
  setfsgid := fun x w => (w.fsgid, if x = -1 then w else { w with fsgid := x })
  fsuid := fun w => w.fsuid
  fsgid := fun w => w.fsgid

/-- A kernel that refuses every request: the calls report the current id and
change nothing. -/
def refusingKernel : OS World where
  setfsuid := fun _ w => (w.fsuid, w)
  setfsgid := fun _ w => (w.fsgid, w)
  fsuid := fun w => w.fsuid
  fsgid := fun w => w.fsgid

/-! ## The single-level directory cleanup

`CleanDirectoryOfFileContents` is declared in FileIO.h; its body is in
FileIO.cpp and `Result` is in Result.h, neither of which is among the sources.
-/

/-- Modelled from the spec: the container of Result.h (missing from the
sources), "tagged union of {Success(T), Failure(ErrorInfo)}", the error
information being at least a human-readable message. -/
inductive Result (τ : Type) where
  | Success (value : τ)
  | Failure (message : String)
  deriving DecidableEq, Repr

/-- Modelled from the spec: `CleanupOutcome` of the data model, "aggregate of
{filesCount: count of files removed, directoriesFound: ordered sequence of
absolute subdirectory paths discovered, success: bool}". -/
structure CleanupOutcome where
  filesCount : Nat
  directoriesFound : List String
  success : Bool
  deriving DecidableEq, Repr

/-- The full path of an entry of the directory `location`. -/
def entryPath (location name : String) : String := location ++ "/" ++ name

/-- Modelled from the spec: the OS removal of one regular file of a directory
(the body of the cleanup is missing from the sources). The removal can fail
("a removal failure is recorded"); when it succeeds the entry is gone from the
listing of the directory. -/
def World.unlink (w : World) (location name : String) : Bool × World :=
  if w.undeletable (entryPath location name) then (false, w)
  else
    (true,
      { w with
        listing := fun d =>
          if d = location then
            (w.listing d).filter fun e =>
              !(decide (e.name = name) && decide (e.kind = EntryKind.RegularFile))
          else w.listing d })

/-- Modelled from the spec: the single-level walk of section 4.6 (the body of
`CleanDirectoryOfFileContents` is missing from the sources). "For each entry,
checks the interrupt flag first: if set, stops immediately and returns the
partial CleanupOutcome with success = false; otherwise classifies the entry,
removes it if it is a regular file (incrementing the file count; a removal
failure ... still allows the walk to continue, with ... the outcome's success
flag false if any removal failed), or records it as a subdirectory path if it
is a directory"; other entries are left in place. `k` counts the polls of the
interrupt flag. -/
def singleLevelWalk (location : String) :
    List DirEntry → Nat → CleanupOutcome → World → CleanupOutcome × World
  | [], _, acc, w => (acc, w)
  | e :: rest, k, acc, w =>
    if w.interrupted k then ({ acc with success := false }, w)
    else
      match e.kind with
      | EntryKind.RegularFile =>
        match w.unlink location e.name with
        | (true, w1) =>
          singleLevelWalk location rest (k + 1) { acc with filesCount := acc.filesCount + 1 } w1
        | (false, w1) =>
          singleLevelWalk location rest (k + 1) { acc with success := false } w1
      | EntryKind.Directory =>
        singleLevelWalk location rest (k + 1)
          { acc with directoriesFound := acc.directoriesFound ++ [entryPath location e.name] } w
      | EntryKind.Other => singleLevelWalk location rest (k + 1) acc w

/-- Modelled from the spec: `CleanDirectoryOfFileContents(location,
filesRemoved, foundDirectories)` with the signature of FileIO.h (its body is
missing from the sources): the single-level walk over the entries of
`location`, the file count and the discovered subdirectories written through
the two reference parameters, the success flag returned as the `Result`. -/
def CleanDirectoryOfFileContents {ε : Type} :
    Operation World (String × Nat × List String) ε (Result Bool) :=
  fun args w =>
    match singleLevelWalk args.1 (w.listing args.1) 0
        { filesCount := 0, directoriesFound := [], success := true } w with
    | (o, w1) =>
      (Outcome.returned
          (if o.success then Result.Success true
           else Result.Failure "directory cleanup did not complete"),
        (args.1, o.filesCount, o.directoriesFound), w1)

/-- The regular files among the entries. -/
def regularFiles (es : List DirEntry) : List DirEntry :=
  es.filter fun e => decide (e.kind = EntryKind.RegularFile)

/-- The subdirectories among the entries. -/
def subdirectories (es : List DirEntry) : List DirEntry :=
  es.filter fun e => decide (e.kind = EntryKind.Directory)

/-! ## The public interface: declared return types -/

/-- The functions FileIO.h declares in namespace `FileIO` (lines 26 to 52);
the two overloads of `CleanDirectory` are told apart by their arity. -/
inductive PublicFunction where
  | SetInterruptFlag
  | Interrupted
  | IsMountPoint
  | ReadBinaryFileContent
  | ReadAsciiFileContent
  | WriteAppendBinaryFileContent
  | WriteAsciiFileContent
  | AppendWriteAsciiFileContent
  | WriteFileContentInternal
  | ChangeFileOrDirOwnershipToUser
  | DoesFileExist
  | DoesDirectoryExist
  | DoesDirectoryHaveContent
  | CleanDirectoryOfFileContents
  | CleanDirectory3
  | CleanDirectory2
  | RemoveEmptyDirectories
  | RemoveFile
  | MoveFile
  | GetDirectoryContents
  | GetUserFromPasswordFile
  | SetUserFileSystemAccess
  deriving DecidableEq, Repr

/-- The return types that occur in those declarations. -/
inductive ReturnType where
  | void
  | bool
  | resultBool
  | resultBytes
  | resultString
  | resultStrings
  | passwdPointer
  deriving DecidableEq, Repr

/-- The declared return type of each function, read off FileIO.h. -/
def returnType : PublicFunction → ReturnType
  | PublicFunction.SetInterruptFlag => ReturnType.void
  | PublicFunction.Interrupted => ReturnType.bool
  | PublicFunction.IsMountPoint => ReturnType.resultBool
  | PublicFunction.ReadBinaryFileContent => ReturnType.resultBytes
  | PublicFunction.ReadAsciiFileContent => ReturnType.resultString
  | PublicFunction.WriteAppendBinaryFileContent => ReturnType.resultBool
  | PublicFunction.WriteAsciiFileContent => ReturnType.resultBool
  | PublicFunction.AppendWriteAsciiFileContent => ReturnType.resultBool
  | PublicFunction.WriteFileContentInternal => ReturnType.resultBool
  | PublicFunction.ChangeFileOrDirOwnershipToUser => ReturnType.resultBool
  | PublicFunction.DoesFileExist => ReturnType.bool
  | PublicFunction.DoesDirectoryExist => ReturnType.bool
  | PublicFunction.DoesDirectoryHaveContent => ReturnType.bool
  | PublicFunction.CleanDirectoryOfFileContents => ReturnType.resultBool
  | PublicFunction.CleanDirectory3 => ReturnType.resultBool
  | PublicFunction.CleanDirectory2 => ReturnType.resultBool
  | PublicFunction.RemoveEmptyDirectories => ReturnType.resultBool
  | PublicFunction.RemoveFile => ReturnType.resultBool
  | PublicFunction.MoveFile => ReturnType.bool
  | PublicFunction.GetDirectoryContents => ReturnType.resultStrings
  | PublicFunction.GetUserFromPasswordFile => ReturnType.passwdPointer
  | PublicFunction.SetUserFileSystemAccess => ReturnType.void

/-- The four checks the interface offers on a path. -/
def pathChecks : List PublicFunction :=
  [PublicFunction.DoesFileExist, PublicFunction.DoesDirectoryExist,
   PublicFunction.IsMountPoint, PublicFunction.DoesDirectoryHaveContent]

/-- Modelled from the spec: the body of `DoesFileExist` (in FileIO.cpp, missing
from the sources): a plain boolean, "the absence itself is the answer". -/
def DoesFileExist (w : World) (pathToFile : String) : Bool :=
  match w.kindOf pathToFile with
  | some EntryKind.RegularFile => true
  | _ => false

/-- Modelled from the spec: the body of `DoesDirectoryExist` (in FileIO.cpp,
missing from the sources): a plain boolean, false when nothing is there. -/
def DoesDirectoryExist (w : World) (pathToDirectory : String) : Bool :=
  match w.kindOf pathToDirectory with
  | some EntryKind.Directory => true
  | _ => false

/-- Modelled from the spec: the body of `DoesDirectoryHaveContent` (in
FileIO.cpp, missing from the sources): a plain boolean, true when the path is
a directory with at least one entry. -/
def DoesDirectoryHaveContent (w : World) (pathToDirectory : String) : Bool :=
  DoesDirectoryExist w pathToDirectory && !(w.listing pathToDirectory).isEmpty

/-! ## The scoped file descriptor -/

/-- The primitives of `<fcntl.h>` and `<unistd.h>` that `ScopedFileDescriptor`
calls: `open(path, flags, mode)` and `close(fd)`, each returning an `int`. -/
structure FdOS (σ : Type) where
  sys_open : String → Int → Int → σ → Int × σ
  sys_close : Int → σ → Int × σ

/-- The struct `ScopedFileDescriptor`: one public member, `int fd`. -/
structure ScopedFileDescriptor where
  fd : Int
  deriving DecidableEq, Repr

/-- The constructor: `fd = open(location.c_str(), flags, permission);`. What
`open` returns is stored as it is, a negative value included. -/
def ScopedFileDescriptor.ctor {σ α ε : Type} (os : FdOS σ) (location : String)
    (flags permission : Int) : Prog σ α ε ScopedFileDescriptor :=
  fun m =>
    (Outcome.returned { fd := (os.sys_open location flags permission m.world).1 },
      { m with
        world := (os.sys_open location flags permission m.world).2,
        trace := m.trace ++
          [Event.sysOpen location flags permission
            (os.sys_open location flags permission m.world).1] })

/-- The destructor: `close(fd);`. -/
def ScopedFileDescriptor.dtor {σ α : Type} (os : FdOS σ) (self : ScopedFileDescriptor)
    (m : Machine σ α) : Machine σ α :=
  { m with world := (os.sys_close self.fd m.world).2, trace := m.trace ++ [Event.sysClose self.fd] }

/-- The copy constructor. The struct declares none, so the language supplies
the implicit one, which copies `fd` member by member and calls nothing. -/
def ScopedFileDescriptor.copy {σ α ε : Type} (other : ScopedFileDescriptor) :
    Prog σ α ε ScopedFileDescriptor :=
  Prog.ret { fd := other.fd }

/-- A scope that owns one `ScopedFileDescriptor` built by the constructor:
`{ ScopedFileDescriptor file(location, flags, permission); body }`. -/
def scopedDescriptor {σ α ε ρ : Type} (os : FdOS σ) (location : String) (flags permission : Int)
    (body : ScopedFileDescriptor → Prog σ α ε ρ) : Prog σ α ε ρ :=
  automatic (ScopedFileDescriptor.ctor os location flags permission)
    (ScopedFileDescriptor.dtor os) body

/-- A client scope that copies the object:
`{ ScopedFileDescriptor a(location, flags, permission); ScopedFileDescriptor b(a); }`. -/
def copiedDescriptor {σ α ε : Type} (os : FdOS σ) (location : String) (flags permission : Int) :
    Prog σ α ε Unit :=
  scopedDescriptor os location flags permission fun a =>
  automatic (ScopedFileDescriptor.copy a) (ScopedFileDescriptor.dtor os) fun _ =>
  Prog.ret ()

/-- How often `close(fd)` was called in a trace. -/
def closeCount (fd : Int) (t : List Event) : Nat := t.count (Event.sysClose fd)

/-- A concrete descriptor table: the descriptors that are open. -/
structure FdTable where
  openFds : List Int
  deriving DecidableEq, Repr

/-- A concrete kernel for descriptors: `open` fails with -1 on the empty path
and otherwise hands out the next descriptor from 3 on; `close` returns 0 for
an open descriptor, which it releases, and -1 (EBADF) for anything else. -/
def fdKernel : FdOS FdTable where
  sys_open := fun location _ _ s =>
    if location = "" then (-1, s)
    else (3 + Int.ofNat s.openFds.length,
      { s with openFds := s.openFds ++ [3 + Int.ofNat s.openFds.length] })
  sys_close := fun fd s =>
    if fd ∈ s.openFds then (0, { s with openFds := s.openFds.erase fd }) else (-1, s)

/-! ## Concurrent calls of `SudoFile`

`sudoFileMutex` is a `static` local variable of a function template, so every
specialisation `SudoFile<FnCall, Args...>` has a mutex of its own. Two threads
are modelled, each running one call statement by statement; a schedule says
which thread performs the next statement.
-/

/-- A specialisation of the template `SudoFile`: the types its parameters
`FnCall` and `Args...` are bound to. -/
structure Instantiation where
  FnCall : String
  Args : List String
  deriving DecidableEq, Repr

/-- Where a thread is in the body of `SudoFile`; each stage names the
statement the thread performs next. -/
inductive Stage where
  | acquire       -- std::lock_guard<std::mutex> lock(sudoFileMutex);
  | snapshotUid   -- auto previuousuid = setfsuid(-1);
  | snapshotGid   -- auto previuousgid = setfsgid(-1);
  | elevateUid    -- setfsuid(0);
  | elevateGid    -- setfsgid(0);
  | callFn        -- return func();
  | restoreUid    -- deleter: setfsuid(previuousuid);
  | restoreGid    -- deleter: setfsgid(previuousgid);
  | release       -- the destructor of lock
  | finished
  deriving DecidableEq, Repr

/-- The stage after a statement that does not touch the mutex. -/
def Stage.next : Stage → Stage
  | Stage.acquire => Stage.snapshotUid
  | Stage.snapshotUid => Stage.snapshotGid
  | Stage.snapshotGid => Stage.elevateUid
  | Stage.elevateUid => Stage.elevateGid
  | Stage.elevateGid => Stage.callFn
  | Stage.callFn => Stage.restoreUid
  | Stage.restoreUid => Stage.restoreGid
  | Stage.restoreGid => Stage.release
  | Stage.release => Stage.finished
  | Stage.finished => Stage.finished

/-- The thread holds the mutex of its specialisation: it has performed the
`lock_guard` and not yet its destructor. -/
def Stage.holdsLock : Stage → Bool
  | Stage.acquire => false
  | Stage.finished => false
  | _ => true

/-- The thread is inside its elevated window: the snapshot has begun and the
restoration is not complete. -/
def Stage.inWindow : Stage → Bool
  | Stage.snapshotGid => true
  | Stage.elevateUid => true
  | Stage.elevateGid => true
  | Stage.callFn => true
  | Stage.restoreUid => true
  | Stage.restoreGid => true
  | _ => false

/-- One thread running one call of `SudoFile`. -/
structure Thread where
  inst : Instantiation
  stage : Stage
  deriving DecidableEq, Repr

/-- Two threads of one process and the mutexes that are locked, each named by
the specialisation it belongs to. -/
structure Process where
  first : Thread
  second : Thread
  lockedMutexes : List Instantiation
  deriving DecidableEq, Repr

/-- The two threads. -/
inductive Tid where
  | first
  | second
  deriving DecidableEq, Repr

/-- One statement of a thread; `none` when the thread cannot move: it waits
for its mutex, or it has finished. -/
def Thread.step (t : Thread) (lockedMutexes : List Instantiation) :
    Option (Thread × List Instantiation) :=
  match t.stage with
  | Stage.acquire =>
    if t.inst ∈ lockedMutexes then none
    else some ({ t with stage := Stage.snapshotUid }, t.inst :: lockedMutexes)
  | Stage.release => some ({ t with stage := Stage.finished }, lockedMutexes.erase t.inst)
  | Stage.finished => none
  | s => some ({ t with stage := s.next }, lockedMutexes)

/-- The process after the chosen thread performs its next statement. -/
def Process.step (p : Process) : Tid → Option Process
  | Tid.first =>
    match p.first.step p.lockedMutexes with
    | some (t, l) => some { p with first := t, lockedMutexes := l }
    | none => none
  | Tid.second =>
    match p.second.step p.lockedMutexes with
    | some (t, l) => some { p with second := t, lockedMutexes := l }
    | none => none

/-- The process after a schedule; `none` when the schedule asks a thread to
move that cannot. -/
def Process.run (p : Process) : List Tid → Option Process
  | [] => some p
  | who :: rest =>
    match p.step who with
    | some q => q.run rest
    | none => none

/-- Two calls about to start, no mutex locked. -/
def Process.start (a b : Instantiation) : Process :=
  { first := { inst := a, stage := Stage.acquire },
    second := { inst := b, stage := Stage.acquire },
    lockedMutexes := [] }

/-- What holds of two calls of one and the same specialisation at every
moment: both threads use that specialisation, at most one holds its mutex, and
the mutex is locked exactly when one of them holds it. -/
def Process.Serialized (inst : Instantiation) (p : Process) : Prop :=
  p.first.inst = inst ∧ p.second.inst = inst ∧
  ¬ (p.first.stage.holdsLock = true ∧ p.second.stage.holdsLock = true) ∧
  p.lockedMutexes =
    if p.first.stage.holdsLock = true ∨ p.second.stage.holdsLock = true then [inst] else []

/-- The elevated windows of the two calls overlap. -/
def Process.overlap (p : Process) : Bool := p.first.stage.inWindow && p.second.stage.inWindow

/-- `SudoFile(FileIO::ReadAsciiFileContent, path)` with `std::string path`. -/
def readInstantiation : Instantiation :=
  { FnCall := "Result<std::string> (*)(const std::string&)", Args := ["std::string&"] }

/-- `SudoFile(FileIO::RemoveFile, path)` with `std::string path`. -/
def removeInstantiation : Instantiation :=
  { FnCall := "Result<bool> (*)(const std::string&)", Args := ["std::string&"] }

/-- The first thread runs up to the call of `fn`, then the second does. -/
def overlappingSchedule : List Tid :=
  [Tid.first, Tid.first, Tid.first, Tid.first, Tid.first,
   Tid.second, Tid.second, Tid.second, Tid.second, Tid.second]

/-! ## Concrete inputs -/

/-- A world for user 1000: `/tmp/x` holds the regular files `a.txt` and
`b.txt` and the subdirectory `sub`; every removal is granted and the interrupt
flag is never set. -/
def exampleWorld : World where
  fsuid := 1000
  fsgid := 1000
  listing := fun d =>
    if d = "/tmp/x" then
      [{ name := "a.txt", kind := EntryKind.RegularFile },
       { name := "b.txt", kind := EntryKind.RegularFile },
       { name := "sub", kind := EntryKind.Directory }]
    else []
  kindOf := fun path =>
    if path = "/tmp/x" ∨ path = "/tmp/x/sub" then some EntryKind.Directory
    else if path = "/tmp/x/a.txt" ∨ path = "/tmp/x/b.txt" then some EntryKind.RegularFile
    else none
  undeletable := fun _ => false
  interrupted := fun _ => false

/-- A world in which `/tmp/x` holds one regular file, `a.txt`, that the OS
refuses to remove; the interrupt flag is never set. -/
def lockedWorld : World where
  fsuid := 1000
  fsgid := 1000
  listing := fun d =>
    if d = "/tmp/x" then [{ name := "a.txt", kind := EntryKind.RegularFile }] else []
  kindOf := fun path =>
    if path = "/tmp/x" then some EntryKind.Directory
    else if path = "/tmp/x/a.txt" then some EntryKind.RegularFile
    else none
  undeletable := fun path => decide (path = "/tmp/x/a.txt")
  interrupted := fun _ => false

/-- The caller's variables before a cleanup call: the location, `filesRemoved`
and `foundDirectories`. -/
def cleanupArguments : String × Nat × List String := ("/tmp/x", 7, ["/old"])

/-- An operation that switches the filesystem identity to user 42 while it
runs and then reports a failure. -/
def failingOperation : Operation World Unit String (Result Bool) :=
  fun a w => (Outcome.returned (Result.Failure "permission denied"), a,
    { w with fsuid := 42, fsgid := 42 })

/-- An operation that exits by an exception. -/
def throwingOperation : Operation World Unit String (Result Bool) :=
  fun a w => (Outcome.raised "std::bad_alloc", a, w)

/-- A machine about to run a call: the given world and caller variables, and
an empty trace. -/
def Machine.initial {σ α : Type} (w : σ) (a : α) : Machine σ α :=
  { world := w, caller := a, trace := [] }

/-! # Theorems -/

/-! ### How one call of `SudoFile` runs -/

/-- One call of `SudoFile`, unfolded: `fn` is applied once, to copies of the
caller's arguments, in the elevated world; the trace grows by the prologue,
the call of `fn`, and the epilogue; the caller's variables are not written. -/
theorem SudoFile_run {σ α ε ρ : Type} (os : OS σ) (fn : Operation σ α ε ρ) (m : Machine σ α) :
    SudoFile os fn m =
      ((fn m.caller (elevatedWorld os m.world)).1,
        { world := restoredWorld os (previousUid os m.world) (previousGid os m.world)
                     (fn m.caller (elevatedWorld os m.world)).2.2,
          caller := m.caller,
          trace := m.trace ++ prologue ++
            [Event.call (os.fsuid (elevatedWorld os m.world)) (os.fsgid (elevatedWorld os m.world)),
             exitEvent (fn m.caller (elevatedWorld os m.world)).1] ++
            epilogue (previousUid os m.world) (previousGid os m.world) }) := by
  simp only [SudoFile, automatic, Prog.seq, Prog.ret, sys_setfsuid, sys_setfsgid, stdBind,
    Bound.invoke, Machine.log, resetPreviousPermisions]
  generalize hfn : fn m.caller (elevatedWorld os m.world) = r
  simp only [elevatedWorld] at hfn
  rw [hfn]
  rcases r with ⟨out, a, w⟩
  cases out <;>
    simp [previousUid, previousGid, restoredWorld, prologue, epilogue, exitEvent,
      elevatedWorld]

/-- The privileged kernel meets the assumption `Honours`. -/
theorem privilegedKernel_honours : Honours privilegedKernel where
  uid_returns := fun _ _ => rfl
  gid_returns := fun _ _ => rfl
  uid_query := fun _ => by simp [privilegedKernel]
  gid_query := fun _ => by simp [privilegedKernel]
  uid_applied := fun x w hx => by simp [privilegedKernel, hx]
  gid_applied := fun x w hx => by simp [privilegedKernel, hx]

/-- Under `Honours`, the world `fn` starts in has the root identity. -/
theorem elevatedWorld_identity {σ : Type} (os : OS σ) (hos : Honours os) (w : σ) :
    identity os (elevatedWorld os w) = (0, 0) := by
  have h0 : (0 : Int) ≠ -1 := by decide
  simp only [identity, elevatedWorld]
  rw [(hos.gid_applied 0 _ h0).1, (hos.gid_applied 0 _ h0).2, (hos.uid_applied 0 _ h0).1]

/-- Under `Honours`, the snapshot holds the identity of the world at entry. -/
theorem snapshot_is_identity {σ : Type} (os : OS σ) (hos : Honours os) (w : σ) :
    (previousUid os w, previousGid os w) = identity os w := by
  simp only [previousUid, previousGid, identity]
  rw [hos.uid_returns, hos.gid_returns, hos.uid_query]

/-- Under `Honours`, restoring real ids `p` and `q` gives the identity `(p, q)`
whatever the world was. -/
theorem restoredWorld_identity {σ : Type} (os : OS σ) (hos : Honours os) (p q : Int)
    (hp : p ≠ -1) (hq : q ≠ -1) (w : σ) :
    identity os (restoredWorld os p q w) = (p, q) := by
  simp only [identity, restoredWorld]
  rw [(hos.gid_applied q _ hq).1, (hos.gid_applied q _ hq).2, (hos.uid_applied p _ hp).1]

/-- C1: for every operation `fn`, every argument list and every starting
filesystem identity, after `SudoFile(fn, args...)` the filesystem identity
equals the identity that held immediately before the call, whatever `fn`
returned (a success, a failure) and whatever `fn` did to the identity while
it ran, assuming the OS calls with `-1` only query and the OS applies each
request it is given. (The same holds when `fn` exits by an exception.) -/
theorem SudoFile_restores_identity {σ α ε ρ : Type} (os : OS σ) (hos : Honours os)
    (fn : Operation σ α ε ρ) (m : Machine σ α) (hid : ValidIdentity os m.world) :
    identity os (SudoFile os fn m).2.world = identity os m.world := by
  have hsnap := snapshot_is_identity os hos m.world
  simp only [identity, Prod.mk.injEq] at hsnap
  rw [SudoFile_run]
  simp only
  rw [restoredWorld_identity os hos _ _ (by rw [hsnap.1]; exact hid.1) (by rw [hsnap.2]; exact hid.2)]
  simp only [identity, hsnap.1, hsnap.2]

/-- Witness of C1: user 1000 calls an operation that switches the identity to
user 42 and reports a failure; afterwards the identity is again (1000, 1000). -/
theorem SudoFile_restores_identity_witness :
    Honours privilegedKernel ∧
    ValidIdentity privilegedKernel (Machine.initial exampleWorld ()).world ∧
    identity privilegedKernel
        (SudoFile privilegedKernel failingOperation (Machine.initial exampleWorld ())).2.world =
      identity privilegedKernel (Machine.initial exampleWorld ()).world :=
  ⟨privilegedKernel_honours, by decide,
    SudoFile_restores_identity privilegedKernel privilegedKernel_honours failingOperation
      (Machine.initial exampleWorld ()) (by decide)⟩

/-- C2: for every operation `fn` and arguments, `SudoFile(fn, args...)` ends
exactly as `fn` applied to those arguments ends when run from the elevated
state: the value `fn` returns is the value `SudoFile` returns, unchanged. -/
theorem SudoFile_returns_result_of_fn {σ α ε ρ : Type} (os : OS σ) (fn : Operation σ α ε ρ)
    (m : Machine σ α) :
    (SudoFile os fn m).1 = (fn m.caller (elevatedWorld os m.world)).1 := by
  rw [SudoFile_run]

/-- C3: in every call `SudoFile(fn, args...)` in which the OS applies the
elevation requests, `fn` is invoked exactly once and starts with the root
identity (fsuid 0, fsgid 0): the events of the call are the lock, the two
snapshots, the two elevation calls, then the call of `fn` and its end, and
only then the two restoration calls and the unlock. -/
theorem SudoFile_invokes_fn_once_as_root {σ α ε ρ : Type} (os : OS σ) (hos : Honours os)
    (fn : Operation σ α ε ρ) (m : Machine σ α) :
    identity os (elevatedWorld os m.world) = (0, 0) ∧
    (SudoFile os fn m).2.trace =
      m.trace ++
        [Event.lock, Event.setfsuid (-1), Event.setfsgid (-1), Event.setfsuid 0,
         Event.setfsgid 0, Event.call 0 0, exitEvent (SudoFile os fn m).1,
         Event.setfsuid (previousUid os m.world), Event.setfsgid (previousGid os m.world),
         Event.unlock] ∧
    (((SudoFile os fn m).2.since m.trace.length).filter Event.isCall).length = 1 := by
  have hroot := elevatedWorld_identity os hos m.world
  refine ⟨hroot, ?_, ?_⟩
  · simp only [identity, Prod.mk.injEq] at hroot
    rw [SudoFile_run]
    simp [prologue, epilogue, hroot.1, hroot.2]
  · rw [SudoFile_run]
    cases (fn m.caller (elevatedWorld os m.world)).1 <;>
      simp [Machine.since, prologue, epilogue, exitEvent, Event.isCall, List.append_assoc]

/-- Witness of C3: with the privileged kernel, a call by user 1000 invokes
the operation once, under the identity (0, 0). -/
theorem SudoFile_invokes_fn_once_as_root_witness :
    Honours privilegedKernel ∧
    (SudoFile privilegedKernel failingOperation (Machine.initial exampleWorld ())).2.trace =
      [Event.lock, Event.setfsuid (-1), Event.setfsgid (-1), Event.setfsuid 0,
       Event.setfsgid 0, Event.call 0 0, Event.fnReturned,
       Event.setfsuid 1000, Event.setfsgid 1000, Event.unlock] :=
  ⟨privilegedKernel_honours,
    (SudoFile_invokes_fn_once_as_root privilegedKernel privilegedKernel_honours failingOperation
      (Machine.initial exampleWorld ())).2.1⟩

/-- C4: in every call `SudoFile(fn, args...)` the restoration of the
snapshotted identity, `setfsuid(previous uid)` then `setfsgid(previous gid)`,
runs exactly once on every exit path: what follows the end of `fn` in the
trace is those two calls and the unlock, whether `fn` returned or raised; the
world left behind is the one `fn` left with the two calls applied; and a fault
raised by `fn` is the outcome of `SudoFile`. -/
theorem SudoFile_restores_on_every_exit {σ α ε ρ : Type} (os : OS σ) (fn : Operation σ α ε ρ)
    (m : Machine σ α) :
    (SudoFile os fn m).2.trace =
      (m.trace ++ prologue ++
        [Event.call (os.fsuid (elevatedWorld os m.world)) (os.fsgid (elevatedWorld os m.world))]) ++
      [exitEvent (SudoFile os fn m).1] ++
      [Event.setfsuid (previousUid os m.world), Event.setfsgid (previousGid os m.world),
       Event.unlock] ∧
    (SudoFile os fn m).2.world =
      (os.setfsgid (previousGid os m.world)
        (os.setfsuid (previousUid os m.world) (fn m.caller (elevatedWorld os m.world)).2.2).2).2 ∧
    (∀ e, (fn m.caller (elevatedWorld os m.world)).1 = Outcome.raised e →
      (SudoFile os fn m).1 = Outcome.raised e ∧
      (SudoFile os fn m).2.trace.reverse.take 4 =
        [Event.unlock, Event.setfsgid (previousGid os m.world),
         Event.setfsuid (previousUid os m.world), Event.fnRaised]) := by
  rw [SudoFile_run]
  refine ⟨by simp [epilogue], by simp [restoredWorld], ?_⟩
  intro e he
  simp [he, exitEvent, epilogue]

/-- Witness of C4: an operation that raises `std::bad_alloc` under the
privileged kernel: the fault reaches the caller and the last events are the
end of `fn`, the two restoration calls and the unlock. -/
theorem SudoFile_restores_on_every_exit_witness :
    (throwingOperation () (elevatedWorld privilegedKernel exampleWorld)).1 =
        Outcome.raised "std::bad_alloc" ∧
    (SudoFile privilegedKernel throwingOperation (Machine.initial exampleWorld ())).1 =
        Outcome.raised "std::bad_alloc" ∧
    (SudoFile privilegedKernel throwingOperation
        (Machine.initial exampleWorld ())).2.trace.reverse.take 4 =
      [Event.unlock, Event.setfsgid 1000, Event.setfsuid 1000, Event.fnRaised] :=
  ⟨rfl,
    (SudoFile_restores_on_every_exit privilegedKernel throwingOperation
      (Machine.initial exampleWorld ())).2.2 "std::bad_alloc" rfl⟩

/-- C7: in every call `SudoFile(fn, args...)`, whatever the operating system
does with the elevation requests (applies them, refuses them, ignores them),
`fn` is invoked exactly once, under whatever identity resulted, and the way it
ends is the way `SudoFile` ends: an elevation that failed is never turned into
a failure of `SudoFile`. -/
theorem SudoFile_runs_fn_whatever_elevation_did {σ α ε ρ : Type} (os : OS σ)
    (fn : Operation σ α ε ρ) (m : Machine σ α) :
    (SudoFile os fn m).1 = (fn m.caller (elevatedWorld os m.world)).1 ∧
    ((SudoFile os fn m).2.since m.trace.length).filter Event.isCall =
      [Event.call (os.fsuid (elevatedWorld os m.world)) (os.fsgid (elevatedWorld os m.world))] := by
  rw [SudoFile_run]
  refine ⟨rfl, ?_⟩
  cases (fn m.caller (elevatedWorld os m.world)).1 <;>
    simp [Machine.since, prologue, epilogue, exitEvent, Event.isCall, List.append_assoc]

/-- With the kernel that refuses every request, the operation runs in the
unchanged world of user 1000 and its result is returned all the same. -/
theorem SudoFile_under_refusingKernel :
    (SudoFile refusingKernel failingOperation (Machine.initial exampleWorld ())).1 =
        Outcome.returned (Result.Failure "permission denied") ∧
    (SudoFile refusingKernel failingOperation (Machine.initial exampleWorld ())).2.trace =
      [Event.lock, Event.setfsuid (-1), Event.setfsgid (-1), Event.setfsuid 0,
       Event.setfsgid 0, Event.call 1000 1000, Event.fnReturned,
       Event.setfsuid 1000, Event.setfsgid 1000, Event.unlock] := by
  constructor <;> rfl

/-- C10: when an operation that reports through reference parameters is
called through `SudoFile` with plain lvalue arguments, `SudoFile` binds copies
of the arguments: after the call the caller's variables (`filesRemoved`,
`foundDirectories`) hold exactly the values they held before it, whatever the
operation wrote, and only the returned `Result` reaches the caller. -/
theorem SudoFile_leaves_caller_arguments {σ α ε ρ : Type} (os : OS σ) (fn : Operation σ α ε ρ)
    (m : Machine σ α) :
    (SudoFile os fn m).2.caller = m.caller ∧
    (SudoFile os fn m).1 = (fn m.caller (elevatedWorld os m.world)).1 := by
  rw [SudoFile_run]
  exact ⟨rfl, rfl⟩

/-- The cleanup of `/tmp/x` called directly and called through `SudoFile`: the
direct call writes 2 and `/tmp/x/sub` into the caller's variables; through
`SudoFile` they keep 7 and `/old`, and the returned Result is the same. -/
theorem cleanup_through_SudoFile_keeps_caller_variables :
    (callDirect privilegedKernel (@CleanDirectoryOfFileContents Unit)
        (Machine.initial exampleWorld cleanupArguments)).2.caller =
      ("/tmp/x", 2, ["/tmp/x/sub"]) ∧
    (SudoFile privilegedKernel (@CleanDirectoryOfFileContents Unit)
        (Machine.initial exampleWorld cleanupArguments)).2.caller =
      ("/tmp/x", 7, ["/old"]) ∧
    (SudoFile privilegedKernel (@CleanDirectoryOfFileContents Unit)
        (Machine.initial exampleWorld cleanupArguments)).1 =
      Outcome.returned (Result.Success true) := by
  decide

/-! ## The single-level cleanup -/

/-- The walk over entries that are regular files or directories, with the
interrupt flag never set and every removal granted: the file count grows by
the number of regular files, the subdirectories are appended in order, the
success flag is untouched. -/
theorem singleLevelWalk_outcome (location : String) (es : List DirEntry) :
    ∀ (k : Nat) (acc : CleanupOutcome) (w : World),
      (∀ e ∈ es, e.kind = EntryKind.RegularFile ∨ e.kind = EntryKind.Directory) →
      (∀ n, w.interrupted n = false) →
      (∀ e ∈ es, e.kind = EntryKind.RegularFile →
        w.undeletable (entryPath location e.name) = false) →
      (singleLevelWalk location es k acc w).1 =
        { filesCount := acc.filesCount + (regularFiles es).length,
          directoriesFound :=
            acc.directoriesFound ++ (subdirectories es).map fun e => entryPath location e.name,
          success := acc.success } := by
  induction es with
  | nil => intro k acc w _ _ _; simp [singleLevelWalk, regularFiles, subdirectories]
  | cons e rest ih =>
    intro k acc w hkinds hflag hrem
    have hk := hkinds e (List.mem_cons_self _ _)
    have hkinds1 : ∀ x ∈ rest, x.kind = EntryKind.RegularFile ∨ x.kind = EntryKind.Directory :=
      fun x hx => hkinds x (List.mem_cons_of_mem _ hx)
    have hrem1 : ∀ x ∈ rest, x.kind = EntryKind.RegularFile →
        w.undeletable (entryPath location x.name) = false :=
      fun x hx => hrem x (List.mem_cons_of_mem _ hx)
    rcases hk with hfile | hdir
    · have hu := hrem e (List.mem_cons_self _ _) hfile
      simp only [singleLevelWalk, hflag, hfile, World.unlink, hu]
      simp only [Bool.false_eq_true, if_false]
      refine (ih (k + 1) _ _ hkinds1 ?_ ?_).trans ?_
      · exact hflag
      · exact hrem1
      · simp [regularFiles, subdirectories, hfile]
        omega
    · simp only [singleLevelWalk, hflag, hdir]
      simp only [Bool.false_eq_true, if_false]
      refine (ih (k + 1) _ _ hkinds1 hflag hrem1).trans ?_
      simp [regularFiles, subdirectories, hdir]

/-- The same walk, seen from the filesystem: of the listing of `location`
exactly the regular files the walk met are gone. -/
theorem singleLevelWalk_listing (location : String) (es : List DirEntry) :
    ∀ (k : Nat) (acc : CleanupOutcome) (w : World),
      (∀ e ∈ es, e.kind = EntryKind.RegularFile ∨ e.kind = EntryKind.Directory) →
      (∀ n, w.interrupted n = false) →
      (∀ e ∈ es, e.kind = EntryKind.RegularFile →
        w.undeletable (entryPath location e.name) = false) →
      (singleLevelWalk location es k acc w).2.listing location =
        (w.listing location).filter fun x =>
          !(decide (x.kind = EntryKind.RegularFile) &&
            decide (x.name ∈ (regularFiles es).map fun e => e.name)) := by
  induction es with
  | nil => intro k acc w _ _ _; simp [singleLevelWalk, regularFiles]
  | cons e rest ih =>
    intro k acc w hkinds hflag hrem
    have hk := hkinds e (List.mem_cons_self _ _)
    have hkinds1 : ∀ x ∈ rest, x.kind = EntryKind.RegularFile ∨ x.kind = EntryKind.Directory :=
      fun x hx => hkinds x (List.mem_cons_of_mem _ hx)
    have hrem1 : ∀ x ∈ rest, x.kind = EntryKind.RegularFile →
        w.undeletable (entryPath location x.name) = false :=
      fun x hx => hrem x (List.mem_cons_of_mem _ hx)
    rcases hk with hfile | hdir
    · have hu := hrem e (List.mem_cons_self _ _) hfile
      simp only [singleLevelWalk, hflag, hfile, World.unlink, hu]
      simp only [Bool.false_eq_true, if_false]
      refine (ih (k + 1) _ _ hkinds1 ?_ ?_).trans ?_
      · exact hflag
      · exact hrem1
      · simp only [if_true, List.filter_filter]
        apply List.filter_congr
        intro x _
        by_cases h1 : x.kind = EntryKind.RegularFile <;> by_cases h2 : x.name = e.name <;>
          simp [regularFiles, hfile, h1, h2]
    · simp only [singleLevelWalk, hflag, hdir]
      simp only [Bool.false_eq_true, if_false]
      refine (ih (k + 1) _ _ hkinds1 hflag hrem1).trans ?_
      have hrf : regularFiles (e :: rest) = regularFiles rest := by
        unfold regularFiles
        rw [List.filter_cons_of_neg]
        rw [hdir]
        decide
      rw [hrf]

/-- Counterexample to C9 as stated: `/tmp/x` holds exactly one regular file and
nothing else, the interrupt flag is never set, but the OS refuses the removal:
the cleanup removes no file and does not report success. -/
theorem CleanDirectoryOfFileContents_refused_removal :
    (regularFiles (lockedWorld.listing "/tmp/x")).length = 1 ∧
    (subdirectories (lockedWorld.listing "/tmp/x")).length = 0 ∧
    (∀ e ∈ lockedWorld.listing "/tmp/x",
      e.kind = EntryKind.RegularFile ∨ e.kind = EntryKind.Directory) ∧
    (∀ n, lockedWorld.interrupted n = false) ∧
    (@CleanDirectoryOfFileContents Unit ("/tmp/x", 0, []) lockedWorld).2.1 = ("/tmp/x", 0, []) ∧
    (@CleanDirectoryOfFileContents Unit ("/tmp/x", 0, []) lockedWorld).1 ≠
      Outcome.returned (Result.Success true) := by
  refine ⟨by decide, by decide, by decide, fun _ => rfl, by decide, by decide⟩

/-- C9, amended: for every directory that contains exactly N regular files and
M subdirectories and no other entries, with the interrupt flag not set and
every removal granted by the OS, `CleanDirectoryOfFileContents` returns
success = true, reports N through `filesRemoved` and the M subdirectories, in
order, through `foundDirectories`, whatever the two variables held before,
and leaves in the directory exactly its subdirectories. -/
theorem CleanDirectoryOfFileContents_removes_files {ε : Type} (w : World) (location : String)
    (filesRemoved : Nat) (foundDirectories : List String) (N M : Nat)
    (hfiles : (regularFiles (w.listing location)).length = N)
    (hdirs : (subdirectories (w.listing location)).length = M)
    (hkinds : ∀ e ∈ w.listing location,
      e.kind = EntryKind.RegularFile ∨ e.kind = EntryKind.Directory)
    (hflag : ∀ n, w.interrupted n = false)
    (hgranted : ∀ e ∈ w.listing location, e.kind = EntryKind.RegularFile →
      w.undeletable (entryPath location e.name) = false) :
    (@CleanDirectoryOfFileContents ε (location, filesRemoved, foundDirectories) w).1 =
      Outcome.returned (Result.Success true) ∧
    (@CleanDirectoryOfFileContents ε (location, filesRemoved, foundDirectories) w).2.1 =
      (location, N, (subdirectories (w.listing location)).map fun e => entryPath location e.name) ∧
    ((@CleanDirectoryOfFileContents ε (location, filesRemoved, foundDirectories) w).2.1.2.2).length
      = M ∧
    (@CleanDirectoryOfFileContents ε (location, filesRemoved, foundDirectories) w).2.2.listing
      location = subdirectories (w.listing location) := by
  have hout := singleLevelWalk_outcome location (w.listing location) 0
    { filesCount := 0, directoriesFound := [], success := true } w hkinds hflag hgranted
  have hlist := singleLevelWalk_listing location (w.listing location) 0
    { filesCount := 0, directoriesFound := [], success := true } w hkinds hflag hgranted
  have hsub : ((w.listing location).filter fun x =>
        !(decide (x.kind = EntryKind.RegularFile) &&
          decide (x.name ∈ (regularFiles (w.listing location)).map fun e => e.name))) =
      subdirectories (w.listing location) := by
    unfold subdirectories
    apply List.filter_congr
    intro x hx
    rcases hkinds x hx with hfile | hdir
    · have hmem : x.name ∈ (regularFiles (w.listing location)).map fun e => e.name :=
        List.mem_map.mpr ⟨x, by simp [regularFiles, hx, hfile], rfl⟩
      simp [hfile, hmem]
    · simp [hdir]
  simp only [CleanDirectoryOfFileContents]
  rw [hsub] at hlist
  refine ⟨?_, ?_, ?_, ?_⟩
  · rw [hout]; simp
  · rw [hout]; simp [hfiles]
  · rw [hout]; simp [hdirs]
  · exact hlist

/-- Witness of C9, amended: `/tmp/x` with the files `a.txt`, `b.txt` and the
subdirectory `sub`: two files removed, one subdirectory reported, success. -/
theorem CleanDirectoryOfFileContents_removes_files_witness :
    (@CleanDirectoryOfFileContents Unit cleanupArguments exampleWorld).1 =
      Outcome.returned (Result.Success true) ∧
    (@CleanDirectoryOfFileContents Unit cleanupArguments exampleWorld).2.1 =
      ("/tmp/x", 2, ["/tmp/x/sub"]) :=
  ⟨(CleanDirectoryOfFileContents_removes_files exampleWorld "/tmp/x" 7 ["/old"] 2 1
      (by decide) (by decide) (by decide) (fun _ => rfl) (fun _ _ _ => rfl)).1,
   (CleanDirectoryOfFileContents_removes_files exampleWorld "/tmp/x" 7 ["/old"] 2 1
      (by decide) (by decide) (by decide) (fun _ => rfl) (fun _ _ _ => rfl)).2.1⟩

/-! ## The public interface -/

/-- Counterexample to C8 as stated: `IsMountPoint` is one of the four checks
and is declared `Result<bool> IsMountPoint(const std::string&)`: it returns a
Result, not a plain boolean. -/
theorem IsMountPoint_returns_Result :
    PublicFunction.IsMountPoint ∈ pathChecks ∧
    returnType PublicFunction.IsMountPoint = ReturnType.resultBool ∧
    ¬ (∀ f ∈ pathChecks, returnType f = ReturnType.bool) := by
  decide

/-- C8, amended: each of `DoesFileExist`, `DoesDirectoryExist` and
`DoesDirectoryHaveContent` returns a plain boolean and not a Result, and
answers an absent path with false; `IsMountPoint` returns a `Result<bool>`. -/
theorem boolean_checks_answer_false_when_absent (f : PublicFunction)
    (hf : f ∈ [PublicFunction.DoesFileExist, PublicFunction.DoesDirectoryExist,
      PublicFunction.DoesDirectoryHaveContent])
    (w : World) (path : String) (habsent : w.kindOf path = none) :
    returnType f = ReturnType.bool ∧
    returnType PublicFunction.IsMountPoint = ReturnType.resultBool ∧
    DoesFileExist w path = false ∧
    DoesDirectoryExist w path = false ∧
    DoesDirectoryHaveContent w path = false := by
  refine ⟨?_, rfl, ?_, ?_, ?_⟩
  · simp only [List.mem_cons, List.mem_singleton, List.not_mem_nil, or_false] at hf
    rcases hf with h | h | h <;> rw [h] <;> rfl
  · simp [DoesFileExist, habsent]
  · simp [DoesDirectoryExist, habsent]
  · simp [DoesDirectoryHaveContent, DoesDirectoryExist, habsent]

/-- Witness of C8, amended: `DoesDirectoryExist` on the absent path `/nowhere`. -/
theorem boolean_checks_answer_false_when_absent_witness :
    exampleWorld.kindOf "/nowhere" = none ∧
    returnType PublicFunction.DoesDirectoryExist = ReturnType.bool ∧
    DoesDirectoryExist exampleWorld "/nowhere" = false :=
  ⟨by decide,
   (boolean_checks_answer_false_when_absent PublicFunction.DoesDirectoryExist (by decide)
      exampleWorld "/nowhere" (by decide)).1,
   (boolean_checks_answer_false_when_absent PublicFunction.DoesDirectoryExist (by decide)
      exampleWorld "/nowhere" (by decide)).2.2.2.1⟩

/-! ## The scoped file descriptor -/

/-- A scope that owns one `ScopedFileDescriptor` and does not copy it: however
the body ends, the scope ends the same way, and what the scope adds to the
trace after the body is one `close` of the stored value, negative or not. -/
theorem scopedDescriptor_closes_at_exit {σ α ε ρ : Type} (os : FdOS σ) (location : String)
    (flags permission : Int) (body : ScopedFileDescriptor → Prog σ α ε ρ) (m : Machine σ α) :
    (scopedDescriptor os location flags permission body m).1 =
      (body { fd := (os.sys_open location flags permission m.world).1 }
        (@ScopedFileDescriptor.ctor σ α ε os location flags permission m).2).1 ∧
    (scopedDescriptor os location flags permission body m).2.trace =
      (body { fd := (os.sys_open location flags permission m.world).1 }
        (@ScopedFileDescriptor.ctor σ α ε os location flags permission m).2).2.trace ++
      [Event.sysClose (os.sys_open location flags permission m.world).1] := by
  simp [scopedDescriptor, automatic, ScopedFileDescriptor.ctor, ScopedFileDescriptor.dtor]

/-- C6, at the failing input: a scope that constructs a `ScopedFileDescriptor`
and copies it closes the descriptor the constructor obtained twice. -/
theorem copiedDescriptor_closes_twice :
    (@copiedDescriptor FdTable Unit Unit fdKernel "/tmp/f" 0 420
        (Machine.initial { openFds := [] } ())).2.trace =
      [Event.sysOpen "/tmp/f" 0 420 3, Event.sysClose 3, Event.sysClose 3] ∧
    closeCount 3
      (@copiedDescriptor FdTable Unit Unit fdKernel "/tmp/f" 0 420
        (Machine.initial { openFds := [] } ())).2.trace = 2 := by
  decide

/-! ## Concurrent calls -/

/-- A statement of either thread keeps two calls of one specialisation
serialized. -/
theorem Process.step_serialized (inst : Instantiation) (p q : Process) (who : Tid)
    (hp : p.Serialized inst) (hstep : p.step who = some q) : q.Serialized inst := by
  obtain ⟨⟨i1, s1⟩, ⟨i2, s2⟩, l⟩ := p
  obtain ⟨h1, h2, hex, hl⟩ := hp
  simp only at h1 h2 hex hl
  subst h1 h2
  cases who <;> cases s1 <;> cases s2 <;>
    simp_all [Process.step, Thread.step, Stage.holdsLock, Stage.next, Process.Serialized] <;>
    (subst hstep; simp [Stage.holdsLock])

/-- Two calls of one and the same specialisation are serialized under every
schedule: their elevated windows never overlap. -/
theorem same_specialisation_never_overlaps (inst : Instantiation) (schedule : List Tid) :
    ∀ (p q : Process), p.Serialized inst → p.run schedule = some q →
      q.Serialized inst ∧ q.overlap = false := by
  induction schedule with
  | nil =>
    intro p q hp hrun
    simp only [Process.run, Option.some.injEq] at hrun
    subst hrun
    refine ⟨hp, ?_⟩
    obtain ⟨_, _, hex, _⟩ := hp
    obtain ⟨⟨i1, s1⟩, ⟨i2, s2⟩, l⟩ := p
    cases s1 <;> cases s2 <;> simp_all [Process.overlap, Stage.inWindow, Stage.holdsLock]
  | cons who rest ih =>
    intro p q hp hrun
    simp only [Process.run] at hrun
    cases hstep : p.step who with
    | none => simp [hstep] at hrun
    | some r =>
      simp only [hstep] at hrun
      exact ih r q (Process.step_serialized inst p r who hp hstep) hrun

/-- Two calls of one specialisation, started together: under every schedule
the elevated windows do not overlap. -/
theorem same_specialisation_from_start (inst : Instantiation) (schedule : List Tid)
    (q : Process) (hrun : (Process.start inst inst).run schedule = some q) :
    q.overlap = false :=
  (same_specialisation_never_overlaps inst schedule (Process.start inst inst) q
    ⟨rfl, rfl, by simp [Process.start, Stage.holdsLock],
      by simp [Process.start, Stage.holdsLock]⟩ hrun).2

/-- C5, at the failing input: two threads call `SudoFile`, one with
`ReadAsciiFileContent` and one with `RemoveFile`. The two specialisations have
a mutex each, so after the first thread has elevated the second takes its own
mutex and elevates as well: both are inside their elevated windows. -/
theorem different_specialisations_overlap :
    readInstantiation ≠ removeInstantiation ∧
    (Process.start readInstantiation removeInstantiation).run overlappingSchedule =
      some { first := { inst := readInstantiation, stage := Stage.callFn },
             second := { inst := removeInstantiation, stage := Stage.callFn },
             lockedMutexes := [removeInstantiation, readInstantiation] } ∧
    ((Process.start readInstantiation removeInstantiation).run overlappingSchedule).map
      Process.overlap = some true := by
  decide

end FileIO
